import Mathlib

/-!
Shallow embedding of the Scrapyd webservice layer (`scrapyd/webservice.py`).

External collaborators reached through the host context (the per-project job
queues, the process launcher, the scheduler, the egg storage, and the spider
runner subprocess) are modelled as explicit parameters or oracles, following
the specification's host-context boundary: only the webservice layer's own
logic is translated from the source.
-/

set_option autoImplicit false

namespace Scrapyd

/-! ### JSON values and the response envelope (`WsResource.render`) -/

/-- A structural model of the JSON values produced by the webservice. -/
inductive JVal where
  | s (v : String)
  | n (v : Int)
  | null
  deriving DecidableEq

/-- A JSON object, as an insertion-ordered field list (Python dict semantics). -/
abbrev Fields := List (String × JVal)

/-- A failure escaping an operation body: either a `twisted.web.error.Error`
(with an explicit HTTP code and message bytes), or any other Python exception,
carried with its rendered `"TypeName: detail"` text. -/
inductive Failure where
  | httpError (code : Nat) (message : String)
  | exn (message : String)
  deriving DecidableEq

/-- Message text the envelope renderer extracts from a failure:
`e.message.decode()` for `error.Error`, else the formatted exception text. -/
def Failure.text : Failure → String
  | .httpError _ m => m
  | .exn m => m

/-- Response code the envelope renderer picks: `int(e.status)` for
`error.Error`; otherwise the response code is left at the HTTP default 200. -/
def Failure.statusCode : Failure → Nat
  | .httpError c _ => c
  | .exn _ => 200

/-- A rendered response body: a JSON object, raw bytes (debug tracebacks and
raw downloads), or empty (a handler that returned `None`). -/
inductive Body where
  | json (fields : Fields)
  | raw (s : String)
  | empty
  deriving DecidableEq

/-- An HTTP response as produced by the envelope renderers. -/
structure WsResponse where
  code : Nat
  body : Body
  deriving DecidableEq

/-- `WsResource.render`: wraps the handler outcome. On failure it sets the
response code for `error.Error`, returns the traceback in debug mode, and
otherwise builds the `status`/`message` error object; on success it adds
`status: "ok"`. In both JSON cases `node_name` is appended last. -/
def wsRender (debug : Bool) (node : String) (result : Except Failure (Option Fields)) :
    WsResponse :=
  match result with
  | .error e =>
      if debug then
        ⟨e.statusCode, .raw "traceback"⟩
      else
        ⟨e.statusCode,
         .json ([("status", .s "error"), ("message", .s e.text)] ++ [("node_name", .s node)])⟩
  | .ok none => ⟨200, .empty⟩
  | .ok (some fields) =>
      ⟨200, .json ((fields ++ [("status", .s "ok")]) ++ [("node_name", .s node)])⟩

/-! ### Request arguments and the `param` decorator -/

/-- The request's argument mapping `txrequest.args`: wire name to the list of
repeated values, in request order.  Twisted keeps one entry per distinct key. -/
abbrev Args := List (String × List String)

/-- Look a wire name up in the argument mapping (`encoded in txrequest.args`). -/
def lookupArg (name : String) (args : Args) : Option (List String) :=
  (args.find? (fun kv => kv.1 = name)).map (fun kv => kv.2)

/-- Remove a wire name from the argument mapping (`txrequest.args.pop(encoded)`). -/
def popArg (name : String) (args : Args) : Args :=
  args.filter (fun kv => kv.1 ≠ name)

/-- The `error.Error(code=http.OK, message=b"'%b' parameter is required")`
raised by the `param` decorator for a missing required parameter. -/
def requiredMissing (name : String) : Failure :=
  .httpError 200 ("'" ++ name ++ "' parameter is required")

/-- `next(values)` on the iterator of converted values: the first raw value;
an empty value list raises `StopIteration`, which no handler catches. -/
def firstVal : List String → Except Failure String
  | [] => .error (.exn "StopIteration: ")
  | v :: _ => .ok v

/-- One `@param(name)` binding step for a required single text parameter:
absent wire name fails the request, a present one is consumed (popped) and its
first value bound. -/
def bindStr (name : String) (req : Args) : Except Failure (String × Args) :=
  match lookupArg name req with
  | none => .error (requiredMissing name)
  | some vs =>
      match firstVal vs with
      | .error e => .error e
      | .ok v => .ok (v, popArg name req)

/-- One `@param(name, required=False)` binding step for an optional single
text parameter: absent wire name binds `none` (the caller substitutes the
declared default), a present one is consumed and its first value bound. -/
def bindOptStr (name : String) (req : Args) : Except Failure (Option String × Args) :=
  match lookupArg name req with
  | none => .ok (none, req)
  | some vs =>
      match firstVal vs with
      | .error e => .error e
      | .ok v => .ok (some v, popArg name req)

/-- One `@param(name, required=False, multiple=True)` binding step: absent
wire name binds `none`, a present one is consumed and all its values bound. -/
def bindMulti (name : String) (req : Args) : Except Failure (Option (List String) × Args) :=
  match lookupArg name req with
  | none => .ok (none, req)
  | some vs => .ok (some vs, popArg name req)

/-- A handler guarded by a single required `@param(name)` decorator, as the
decorator's wrapper composes them: the handler body runs only after binding. -/
def withRequiredParam {α : Type} (name : String)
    (handler : String → Args → Except Failure α) (req : Args) : Except Failure α :=
  match bindStr name req with
  | .error e => .error e
  | .ok (v, rest) => handler v rest

/-! ### File-system model and the raw download resources -/

/-- Outcome of `open(path, "rb").read()`. -/
inductive ReadResult where
  | ok (content : String)
  | notFound
  | failure (msg : String)
  deriving DecidableEq

/-- The file-system oracle: path existence and file-ness tests, absolute-path
resolution (`os.path.abspath`), and file reading. -/
structure Fs where
  pathExists : String → Bool
  isFile : String → Bool
  abspath : String → String
  read : String → ReadResult

/-- `os.path.join(a, b)` for POSIX: an absolute second component discards the
first, and a separator is inserted only when `a` does not already end in one.
The separator tests are phrased on the character data. -/
def osJoin (a b : String) : String :=
  if b.data.head? = some '/' then b
  else if a.data.getLast? = some '/' then a ++ b
  else a ++ "/" ++ b

/-- A response of a raw pass-through resource, with the headers the handlers
set explicitly.  The response code defaults to 200. -/
structure RawResponse where
  code : Nat
  contentType : Option String
  disposition : Option String
  contentLength : Option Nat
  body : String
  deriving DecidableEq

/-- `SpiderDownloadResult.render_GET`: serves `results/<project>/<job_id>`.
The first existence check runs on the raw interpolated path; only then is the
path rebuilt with `os.path.join`, resolved with `os.path.abspath`, and tested
for containment in the results root by string prefix; an escaping path gets a
403 whose body is the same generic `File not found` used by the 404 branch. -/
def downloadResultGET (fs : Fs) (project job_id : String) : RawResponse :=
  let directory_path := "results/" ++ project ++ "/" ++ job_id
  if ¬ (fs.pathExists directory_path ∧ fs.isFile directory_path) then
    ⟨404, none, none, none, "File not found"⟩
  else
    let base_directory := "results"
    let directory_path := osJoin (osJoin base_directory project) job_id
    let absolute_path := fs.abspath directory_path
    if ¬ (absolute_path.startsWith (fs.abspath base_directory)) then
      ⟨403, none, none, none, "File not found"⟩
    else if ¬ (fs.pathExists absolute_path ∧ fs.isFile absolute_path) then
      ⟨404, none, none, none, "File not found"⟩
    else
      match fs.read directory_path with
      | .ok content =>
          ⟨200, some "application/json",
           some ("attachment; filename=\"" ++ job_id ++ "\""),
           some job_id.length, content⟩
      | _ => ⟨500, none, none, none, "Error sending results"⟩

/-- `SpiderResults.render_GET`: serves the named result file
`results/<project>/local-<configName>-<configID>-result.json`; on success the
`Content-Length` header is the length of the content just read. -/
def spiderResultsGET (fs : Fs) (debug : Bool) (project configID configName : String) :
    RawResponse :=
  let file_path := "results/" ++ project ++ "/local-" ++ configName ++ "-" ++ configID ++ "-result.json"
  match fs.read file_path with
  | .ok content =>
      ⟨200, some "application/octet-stream",
       some ("attachment; filename=" ++ configName ++ "-" ++ configID ++ "-result"),
       some content.length, content⟩
  | .notFound => ⟨404, none, none, none, "File not found"⟩
  | .failure e => ⟨500, none, none, none, if debug then "traceback" else "Error: " ++ e⟩

/-! ### The spider-list cache (`SpiderList`) -/

/-- The two-level cache `SpiderList.cache`, as a lookup function: project and
version key (`none` is the unspecified-version key) to the cached list. -/
abbrev Cache := String → Option String → Option (List String)

/-- The runner oracle: the outcome of invoking the configured listing command
as a subprocess for a project and (possibly unspecified) egg version.  An
error carries the text a `RunnerError` would be raised with. -/
abbrev Runner := String → Option String → Except String (List String)

/-- The cache update performed by a successful `SpiderList.set`: the
unspecified-version entry of the project is evicted first, then the
`(project, version)` entry is written. -/
def cacheWrite (c : Cache) (p : String) (v : Option String) (spiders : List String) : Cache :=
  fun p' v' =>
    if p' = p then
      if v' = v then some spiders
      else if v' = none then none
      else c p' v'
    else c p' v'

/-- `SpiderList.set`: invoke the runner, bypassing the cache; a non-zero exit
raises `RunnerError` (and leaves the cache untouched); on success the cache is
updated per `cacheWrite` and the listed spiders returned. -/
def spiderListSet (runner : Runner) (c : Cache) (p : String) (v : Option String) :
    Except String (List String × Cache) :=
  match runner p v with
  | .error e => .error e
  | .ok spiders => .ok (spiders, cacheWrite c p v spiders)

/-- `SpiderList.get`: return the cached entry if present, else fall through to
`SpiderList.set`. -/
def spiderListGet (runner : Runner) (c : Cache) (p : String) (v : Option String) :
    Except String (List String × Cache) :=
  match c p v with
  | some spiders => .ok (spiders, c)
  | none => spiderListSet runner c p v

/-- `SpiderList.delete`: with no version, discard the project's entire cache;
with a version, discard that version's entry and the unspecified-version
entry. -/
def spiderListDelete (c : Cache) (p : String) (v : Option String) : Cache :=
  match v with
  | none => fun p' v' => if p' = p then none else c p' v'
  | some ver => fun p' v' =>
      if p' = p ∧ (v' = none ∨ v' = some ver) then none else c p' v'

/-! ### Host-context state: queues, launcher -/

/-- A pending-queue message; the webservice consults only its `_job` field. -/
structure Message where
  job : String
  deriving DecidableEq

/-- A running or finished process record held by the launcher. -/
structure Process where
  project : String
  spider : String
  job : String
  pid : Nat
  start_time : Nat
  end_time : Option Nat
  deriving DecidableEq

/-- The launcher: the keyed map of running processes (iteration order is the
list order) and the set of finished records (modelled insertion-ordered). -/
structure Launcher where
  processes : List (Nat × Process)
  finished : List Process
  deriving DecidableEq

/-- The host-context state the job-control operations consult: the poller's
per-project queues and the launcher. -/
structure ServerState where
  queues : List (String × List Message)
  launcher : Launcher
  deriving DecidableEq

/-- `project in self.root.poller.queues`. -/
def hasQueue (st : ServerState) (project : String) : Bool :=
  st.queues.any (fun q => q.1 = project)

/-- The pending messages of a project's queue (`queues[project].list()`). -/
def getQueue (st : ServerState) (project : String) : List Message :=
  ((st.queues.find? (fun q => q.1 = project)).map (fun q => q.2)).getD []

/-- Replace a project's queue contents. -/
def setQueue (st : ServerState) (project : String) (msgs : List Message) : ServerState :=
  { st with queues := st.queues.map (fun q => if q.1 = project then (q.1, msgs) else q) }

/-- Modelled from the spec: the host-provided per-project queue's
predicate-based removal (`queues[project].remove(lambda message: ...)`), which
is not part of the supplied source.  It removes every message matching the
predicate and reports how many it removed; the handler tests the count for
truthiness. -/
def queueRemove (q : List Message) (job : String) : Nat × List Message :=
  ((q.filter (fun m => m.job = job)).length, q.filter (fun m => ¬ m.job = job))

/-- The `error.Error(code=http.OK, message=b"project '%b' not found")`. -/
def projectNotFound (project : String) : Failure :=
  .httpError 200 ("project '" ++ project ++ "' not found")

/-! ### `Cancel.render_POST` -/

/-- What a Cancel request produced: the updated state, the signals delivered
(`process.transport.signalProcess(signal)`, by process key), and the reported
`prevstate`. -/
structure CancelOutcome where
  state : ServerState
  signals : List (Nat × String)
  prevstate : Option String
  deriving DecidableEq

/-- Does a running process match the (project, job) pair? -/
def procMatch (project job : String) (kp : Nat × Process) : Bool :=
  kp.2.project = project ∧ kp.2.job = job

/-- `Cancel.render_POST` with parameters already bound: unknown project fails;
otherwise a matching pending message is removed (setting `prevstate` to
`pending`), and every matching running process is signalled, unconditionally
popped from the running map and appended to the finished set with its end
time set to the cancellation moment (setting `prevstate` to `running`). -/
def cancelPOST (st : ServerState) (now : Nat) (project job signal : String) :
    Except Failure CancelOutcome :=
  if ¬ hasQueue st project then
    .error (projectNotFound project)
  else
    let removed := queueRemove (getQueue st project) job
    let st1 := setQueue st project removed.2
    let prev1 : Option String := if removed.1 ≠ 0 then some "pending" else none
    let matching := st1.launcher.processes.filter (procMatch project job)
    let launcher1 : Launcher :=
      { processes := st1.launcher.processes.filter (fun kp => ¬ procMatch project job kp),
        finished := st1.launcher.finished ++
          matching.map (fun kp => { kp.2 with end_time := some now }) }
    .ok { state := { st1 with launcher := launcher1 },
          signals := matching.map (fun kp => (kp.1, signal)),
          prevstate := if matching.isEmpty then prev1 else some "running" }

/-! ### `Status.render_GET` -/

/-- `project is None or record.project == project`. -/
def projFilter (project : Option String) (p : String) : Bool :=
  match project with
  | none => true
  | some q => p = q

/-- The project-existence guard shared by Status (and ListJobs): a supplied
project must have a queue. -/
def projectOk (st : ServerState) (project : Option String) : Bool :=
  match project with
  | none => true
  | some p => hasQueue st p

/-- The finished-records scan of `Status.render_GET`. -/
def finishedHit (st : ServerState) (job : String) (project : Option String) : Bool :=
  st.launcher.finished.any (fun f => projFilter project f.project ∧ f.job = job)

/-- The running-processes scan of `Status.render_GET`. -/
def runningHit (st : ServerState) (job : String) (project : Option String) : Bool :=
  st.launcher.processes.any (fun kp => projFilter project kp.2.project ∧ kp.2.job = job)

/-- The pending-queue scan of `Status.render_GET`: all queues when no project
filter was supplied, else the one queue of the supplied project. -/
def pendingHit (st : ServerState) (job : String) (project : Option String) : Bool :=
  match project with
  | none => st.queues.any (fun q => q.2.any (fun m => m.job = job))
  | some p => (getQueue st p).any (fun m => m.job = job)

/-- `Status.render_GET` with parameters already bound: reports the job's
current state, checking finished records first, then running processes, then
the pending queues, returning `none` (JSON null) when nothing matches. -/
def statusGET (st : ServerState) (job : String) (project : Option String) :
    Except Failure (Option String) :=
  if ¬ projectOk st project then
    .error (projectNotFound (project.getD ""))
  else if finishedHit st job project then
    .ok (some "finished")
  else if runningHit st job project then
    .ok (some "running")
  else if pendingHit st job project then
    .ok (some "pending")
  else
    .ok none

/-! ### `Schedule.render_POST` -/

/-- `s.split("=", 1)` as used by `dict(s.split("=", 1) for s in setting)`:
a string without `=` makes the pair construction raise `ValueError`. -/
def splitSetting (s : String) : Option (String × String) :=
  match s.splitOn "=" with
  | [] => none
  | [_] => none
  | k :: rest => some (k, String.intercalate "=" rest)

/-- Parse every `key=value` setting string, failing if any lacks `=`. -/
def parseSettings : List String → Option (List (String × String))
  | [] => some []
  | s :: rest =>
      match splitSetting s with
      | none => none
      | some kv => (parseSettings rest).map (fun r => kv :: r)

/-- `{key.decode(): values[0].decode() for key, values in txrequest.args.items()}`:
the first value of every remaining wire name; an empty value list raises
`IndexError`. -/
def firstValues : Args → Option (List (String × String))
  | [] => some []
  | (k, v :: _) :: rest => (firstValues rest).map (fun r => (k, v) :: r)
  | (_, []) :: _ => none

/-- A recorded `self.root.scheduler.schedule(...)` invocation. -/
structure ScheduleCall where
  project : String
  spider : String
  priority : Float
  settings : List (String × String)
  job : String
  args : List (String × String)

/-- Outcome of a Schedule request: the (possibly updated) spider-list cache,
the scheduler invocations performed, and the response (the job id, or the
failure). -/
structure ScheduleResult where
  cache : Cache
  calls : List ScheduleCall
  response : Except Failure String

/-- The `if version and self.root.eggstorage.get(project, version) == (None, None)`
guard: an explicit non-empty version that the egg store cannot resolve.
`eggFound p v` models `eggstorage.get(p, v) != (None, None)`. -/
def versionAbsent (eggFound : String → String → Bool) (project : String) :
    Option String → Bool
  | some v => (v != "") && !(eggFound project v)
  | none => false

/-- The body of `Schedule.render_POST`, after parameter binding (`req` is the
argument mapping left over once the declared parameters were popped). -/
def scheduleBody (st : ServerState) (cache : Cache) (runner : Runner)
    (eggFound : String → String → Bool) (req : Args)
    (project spider : String) (version : Option String) (jobid : String)
    (priority : Float) (setting : List String) : ScheduleResult :=
  if ¬ hasQueue st project then
    ⟨cache, [], .error (projectNotFound project)⟩
  else if versionAbsent eggFound project version then
    ⟨cache, [], .error (.httpError 200 ("version '" ++ version.getD "" ++ "' not found"))⟩
  else
    match spiderListGet runner cache project version with
    | .error e => ⟨cache, [], .error (.exn ("RunnerError: " ++ e))⟩
    | .ok (spiders, cache') =>
        if spider ∉ spiders then
          ⟨cache', [], .error (.httpError 200 ("spider '" ++ spider ++ "' not found"))⟩
        else
          match firstValues req with
          | none => ⟨cache', [], .error (.exn "IndexError: list index out of range")⟩
          | some firsts =>
              let args := firsts ++
                (match version with | some v => [("_version", v)] | none => [])
              match parseSettings setting with
              | none =>
                  ⟨cache', [],
                   .error (.exn "ValueError: dictionary update sequence element has length 1; 2 is required")⟩
              | some settings =>
                  ⟨cache',
                   [{ project := project, spider := spider, priority := priority,
                      settings := settings, job := jobid, args := args }],
                   .ok jobid⟩

/-- The `@param("priority", required=False, default=0, type=float)` binding
step: an absent wire name binds the default 0; a present one has its first
value converted by `float`, a conversion failure raising the
`priority is invalid` error. -/
def bindPriority (fconv : String → Except String Float) (req : Args) :
    Except Failure (Float × Args) :=
  match lookupArg "priority" req with
  | none => .ok (0, req)
  | some vs =>
      match firstVal vs with
      | .error e => .error e
      | .ok v =>
          match fconv v with
          | .error e => .error (.httpError 200 ("priority is invalid: " ++ e))
          | .ok x => .ok (x, popArg "priority" req)

/-- The stacked `@param` decorators of `Schedule.render_POST`, outermost
first: `project`, `spider`, `_version` (optional, default None), `jobid`
(optional, default a fresh token), `priority` (optional float, default 0),
`setting` (optional, multiple).  Returns the bound values and the remaining
argument mapping. -/
def scheduleBind (fconv : String → Except String Float) (freshId : String) (req : Args) :
    Except Failure (String × String × Option String × String × Float × List String × Args) :=
  match bindStr "project" req with
  | .error e => .error e
  | .ok (project, req) =>
    match bindStr "spider" req with
    | .error e => .error e
    | .ok (spider, req) =>
      match bindOptStr "_version" req with
      | .error e => .error e
      | .ok (version, req) =>
        match bindOptStr "jobid" req with
        | .error e => .error e
        | .ok (jobidOpt, req) =>
          match bindPriority fconv req with
          | .error e => .error e
          | .ok (priority, req) =>
            match bindMulti "setting" req with
            | .error e => .error e
            | .ok (settingOpt, req) =>
              .ok (project, spider, version, jobidOpt.getD freshId, priority,
                   settingOpt.getD [], req)

/-- `Schedule.render_POST`: parameter binding followed by the body. -/
def schedulePOST (st : ServerState) (cache : Cache) (runner : Runner)
    (eggFound : String → String → Bool) (fconv : String → Except String Float)
    (freshId : String) (req : Args) : ScheduleResult :=
  match scheduleBind fconv freshId req with
  | .error e => ⟨cache, [], .error e⟩
  | .ok (project, spider, version, jobid, priority, setting, req') =>
      scheduleBody st cache runner eggFound req' project spider version jobid priority setting

/-- The argument mapping left after the six declared Schedule parameters are
consumed: each binding step pops its wire name (popping an absent name is a
no-op). -/
def scheduleRemaining (req : Args) : Args :=
  popArg "setting" (popArg "priority" (popArg "jobid"
    (popArg "_version" (popArg "spider" (popArg "project" req)))))

/-! ### `AddVersion.render_POST` -/

/-- The state the version-management operations touch: the egg store (as the
record of `eggstorage.put` calls), the daemon's known-projects set, and the
spider-list cache. -/
structure MgmtState where
  eggs : List (String × String × String)
  projects : List String
  cache : Cache

/-- `AddVersion.render_POST` with parameters already bound.  `isZip` models
`zipfile.is_zipfile(BytesIO(egg))` and `updateProjects` models
`self.root.update_projects()` refreshing the known-projects set.  A non-ZIP
payload is rejected before any mutation. -/
def addVersionPOST (isZip : String → Bool) (runner : Runner)
    (updateProjects : List String → List String)
    (st : MgmtState) (project version egg : String) :
    MgmtState × Except Failure Fields :=
  if ¬ isZip egg then
    (st, .error (.httpError 200 "egg is not a ZIP file (if using curl, use egg=@path not egg=path)"))
  else
    let st1 := { st with eggs := st.eggs ++ [(project, version, egg)] }
    let st2 := { st1 with projects := updateProjects st1.projects }
    match spiderListSet runner st2.cache project (some version) with
    | .error e => (st2, .error (.exn ("RunnerError: " ++ e)))
    | .ok (spiders, c') =>
        ({ st2 with cache := c' },
         .ok [("project", .s project), ("version", .s version),
              ("spiders", .n (spiders.length : Int))])

/-! ### Concrete fixtures -/

/-- A file system on which nothing exists, and where the result path built
from project `..` resolves outside the results root. -/
def fsEmpty : Fs :=
  { pathExists := fun _ => false
    isFile := fun _ => false
    abspath := fun s => if s = "results" then "/app/results" else "/app/x"
    read := fun _ => .notFound }

/-- A file system holding exactly the file `results/a/b`, which resolves to
the absolute path `/out`, outside the results root `/r/results`; paths of
other names resolve inside the root and do not exist. -/
def fsEscape : Fs :=
  { pathExists := fun s => s == "results/a/b" || s == "/out"
    isFile := fun s => s == "results/a/b" || s == "/out"
    abspath := fun s =>
      if s = "results" then "/r/results"
      else if s = "results/a/b" then "/out"
      else "/r/" ++ s
    read := fun _ => .notFound }

/-- A file system holding exactly the named result file for project `p`,
config name `n`, config id `i`, with three bytes of content. -/
def fsNamed : Fs :=
  { pathExists := fun _ => false
    isFile := fun _ => false
    abspath := fun s => s
    read := fun s => if s = "results/p/local-n-i-result.json" then .ok "abc" else .notFound }

/-- The empty spider-list cache. -/
def cacheEmpty : Cache := fun _ _ => none

/-- A runner oracle that always lists one spider, `s1`. -/
def runnerOne : Runner := fun _ _ => .ok ["s1"]

/-- An empty management state. -/
def mgmtEmpty : MgmtState := ⟨[], [], cacheEmpty⟩

/-- A running process for job `j` of project `p`. -/
def procRun : Process := ⟨"p", "sp", "j", 11, 5, none⟩

/-- A finished record for the same job `j` of project `p`. -/
def procFin : Process := ⟨"p", "sp", "j", 12, 1, some 2⟩

/-- A state in which job `j` is simultaneously in the finished set and the
running set of project `p`. -/
def stBoth : ServerState := ⟨[("p", [])], ⟨[(1, procRun)], [procFin]⟩⟩

/-- A state with two pending jobs (`j`, `k`) and two running processes
(jobs `j` and `z`) for project `p`. -/
def stCancel : ServerState :=
  ⟨[("p", [⟨"j"⟩, ⟨"k"⟩])], ⟨[(1, procRun), (2, ⟨"p", "sp", "z", 13, 6, none⟩)], []⟩⟩

/-- A cache holding the spider list `[s]` for project `p`, version `7`. -/
def cacheHit : Cache :=
  fun p v => if p = "p" ∧ v = some "7" then some ["s"] else none

/-- A concrete Schedule request carrying an explicit `_version` and an
unconsumed repeated parameter `foo`. -/
def reqFoo : Args :=
  [("project", ["p"]), ("spider", ["s"]), ("_version", ["7"]), ("foo", ["x", "y"])]

/-! ### Theorems -/

/-- Updating a project's queue and looking it up again returns the new
contents, provided the project had a queue. -/
theorem find_set_list (l : List (String × List Message)) (project : String)
    (msgs : List Message) (h : l.any (fun q => q.1 = project) = true) :
    (l.map (fun q => if q.1 = project then (q.1, msgs) else q)).find?
        (fun q => q.1 = project) = some (project, msgs) := by
  induction l with
  | nil => simp at h
  | cons a t ih =>
    by_cases ha : a.1 = project
    · simp [List.find?, ha]
    · have ht : t.any (fun q => q.1 = project) = true := by
        simp [List.any_cons, ha] at h
        simpa using h
      simp [List.find?, ha, ih ht]

/-- `getQueue` after `setQueue` returns the new queue contents. -/
theorem getQueue_setQueue (st : ServerState) (project : String) (msgs : List Message)
    (hq : hasQueue st project = true) :
    getQueue (setQueue st project msgs) project = msgs := by
  unfold hasQueue at hq
  unfold getQueue setQueue
  simp only
  rw [find_set_list st.queues project msgs hq]
  rfl

/-- Claim C6: the spider-list cache maintains the ambiguity-avoidance rule: a
successful `set(p, v)` evicts the unspecified-version entry for `p` and then
writes the `(p, v)` entry, leaving other versions and other projects alone;
`delete(p)` with no version clears every cached version for `p`; and
`delete(p, v)` removes exactly the `(p, v)` entry and the unspecified-version
entry for `p`, leaving every other explicit-version entry of `p` intact. -/
theorem spiderList_cache_ambiguity
    (runner : Runner) (c : Cache) (p q : String) (v v' : Option String)
    (l : List String) (w ver : String)
    (hrun : runner p v = .ok l)
    (hw : some w ≠ v) (hwv : w ≠ ver) (hq : q ≠ p) :
    spiderListSet runner c p v = .ok (l, cacheWrite c p v l)
    ∧ cacheWrite c p v l p v = some l
    ∧ cacheWrite c p v l p none = (if v = none then some l else none)
    ∧ cacheWrite c p v l p (some w) = c p (some w)
    ∧ cacheWrite c p v l q v' = c q v'
    ∧ spiderListDelete c p none p v' = none
    ∧ spiderListDelete c p none q v' = c q v'
    ∧ spiderListDelete c p (some ver) p none = none
    ∧ spiderListDelete c p (some ver) p (some ver) = none
    ∧ spiderListDelete c p (some ver) p (some w) = c p (some w)
    ∧ spiderListDelete c p (some ver) q v' = c q v' := by
  refine ⟨by simp [spiderListSet, hrun], by simp [cacheWrite], ?_,
      by simp [cacheWrite, hw], by simp [cacheWrite, hq],
      by simp [spiderListDelete], by simp [spiderListDelete, hq],
      by simp [spiderListDelete], by simp [spiderListDelete],
      by simp [spiderListDelete, hwv], by simp [spiderListDelete, hq]⟩
  cases v <;> simp [cacheWrite]

/-- Witness for claim C6 at concrete inputs. -/
theorem spiderList_cache_ambiguity_witness :
    runnerOne "p" (some "1") = .ok ["s1"]
    ∧ (some "2" ≠ some "1" ∧ "2" ≠ "3" ∧ "q" ≠ "p")
    ∧ (spiderListSet runnerOne cacheEmpty "p" (some "1") =
        .ok (["s1"], cacheWrite cacheEmpty "p" (some "1") ["s1"])
      ∧ cacheWrite cacheEmpty "p" (some "1") ["s1"] "p" (some "1") = some ["s1"]
      ∧ cacheWrite cacheEmpty "p" (some "1") ["s1"] "p" none =
          (if (some "1" : Option String) = none then some ["s1"] else none)
      ∧ cacheWrite cacheEmpty "p" (some "1") ["s1"] "p" (some "2") = cacheEmpty "p" (some "2")
      ∧ cacheWrite cacheEmpty "p" (some "1") ["s1"] "q" none = cacheEmpty "q" none
      ∧ spiderListDelete cacheEmpty "p" none "p" none = none
      ∧ spiderListDelete cacheEmpty "p" none "q" none = cacheEmpty "q" none
      ∧ spiderListDelete cacheEmpty "p" (some "3") "p" none = none
      ∧ spiderListDelete cacheEmpty "p" (some "3") "p" (some "3") = none
      ∧ spiderListDelete cacheEmpty "p" (some "3") "p" (some "2") = cacheEmpty "p" (some "2")
      ∧ spiderListDelete cacheEmpty "p" (some "3") "q" none = cacheEmpty "q" none) :=
  ⟨rfl, ⟨by decide, by decide, by decide⟩,
   spiderList_cache_ambiguity runnerOne cacheEmpty "p" "q" (some "1") none ["s1"] "2" "3"
     rfl (by decide) (by decide) (by decide)⟩

/-- Claim C3: an Add Version request whose egg payload is not a valid ZIP
archive fails with the `egg=@path` hint and mutates nothing: egg store,
known-projects set and spider-list cache are returned unchanged. -/
theorem addVersion_non_zip_rejected_no_mutation
    (isZip : String → Bool) (runner : Runner) (updateProjects : List String → List String)
    (st : MgmtState) (project version egg : String)
    (hz : isZip egg = false) :
    addVersionPOST isZip runner updateProjects st project version egg =
      (st, .error (.httpError 200
        "egg is not a ZIP file (if using curl, use egg=@path not egg=path)")) := by
  simp [addVersionPOST, hz]

/-- Witness for claim C3 at concrete inputs. -/
theorem addVersion_non_zip_rejected_no_mutation_witness :
    (fun _ : String => false) "payload" = false
    ∧ addVersionPOST (fun _ => false) runnerOne (fun ps => ps) mgmtEmpty "p" "1" "payload" =
        (mgmtEmpty, .error (.httpError 200
          "egg is not a ZIP file (if using curl, use egg=@path not egg=path)")) :=
  ⟨rfl, addVersion_non_zip_rejected_no_mutation (fun _ => false) runnerOne
    (fun ps => ps) mgmtEmpty "p" "1" "payload" rfl⟩

/-- Claim C4: Status lookup determines `currstate` by checking the finished
records first, then the running processes, then the pending queues, in that
priority order; a job id found nowhere reports absent (null).  In particular a
job id present in both the finished and the running set reports finished. -/
theorem status_precedence (st : ServerState) (job : String) (project : Option String)
    (hp : projectOk st project = true) :
    (finishedHit st job project = true →
       statusGET st job project = .ok (some "finished"))
    ∧ (finishedHit st job project = false → runningHit st job project = true →
       statusGET st job project = .ok (some "running"))
    ∧ (finishedHit st job project = false → runningHit st job project = false →
       pendingHit st job project = true →
       statusGET st job project = .ok (some "pending"))
    ∧ (finishedHit st job project = false → runningHit st job project = false →
       pendingHit st job project = false →
       statusGET st job project = .ok none) := by
  refine ⟨?_, ?_, ?_, ?_⟩ <;> intros <;> simp [statusGET, hp, *]

/-- Witness for claim C4: a job id present in both the finished set and the
running set reports finished. -/
theorem status_precedence_witness :
    projectOk stBoth none = true
    ∧ finishedHit stBoth "j" none = true
    ∧ runningHit stBoth "j" none = true
    ∧ statusGET stBoth "j" none = .ok (some "finished") :=
  ⟨by decide, by decide, by decide,
   (status_precedence stBoth "j" none (by decide)).1 (by decide)⟩

/-- Claim C7: a request omitting a declared required parameter fails before
the handler body runs (the outcome is the same for every handler), with
overall HTTP status 200 and a JSON error envelope whose message is exactly
`'<name>' parameter is required`. -/
theorem required_param_missing_envelope (name node : String) (req : Args)
    (handler handler2 : String → Args → Except Failure (Option Fields))
    (habs : lookupArg name req = none) :
    wsRender false node (withRequiredParam name handler req) =
      ⟨200, .json [("status", .s "error"),
                   ("message", .s ("'" ++ name ++ "' parameter is required")),
                   ("node_name", .s node)]⟩
    ∧ withRequiredParam name handler req = withRequiredParam name handler2 req := by
  constructor <;>
    simp [withRequiredParam, bindStr, habs, wsRender, requiredMissing,
      Failure.text, Failure.statusCode]

/-- Witness for claim C7 at concrete inputs: a request lacking `project`. -/
theorem required_param_missing_envelope_witness :
    lookupArg "project" [("spider", ["s"])] = none
    ∧ (wsRender false "n"
        (withRequiredParam "project" (fun _ _ => .ok (none : Option Fields)) [("spider", ["s"])]) =
        ⟨200, .json [("status", .s "error"),
                     ("message", .s "'project' parameter is required"),
                     ("node_name", .s "n")]⟩
      ∧ withRequiredParam "project" (fun _ _ => .ok (none : Option Fields)) [("spider", ["s"])] =
          withRequiredParam "project" (fun _ _ => .ok (some ([] : Fields))) [("spider", ["s"])]) :=
  ⟨by decide,
   required_param_missing_envelope "project" "n" [("spider", ["s"])]
     (fun _ _ => .ok (none : Option Fields)) (fun _ _ => .ok (some ([] : Fields))) (by decide)⟩

/-- Counterexample to claim C1 as stated: a result-download request whose
path resolves outside the results root but whose raw path does not exist is
answered with HTTP 404, not 403. -/
theorem downloadResult_out_of_root_missing_is_404 :
    (fsEmpty.abspath (osJoin (osJoin "results" "..") "passwd")).startsWith
        (fsEmpty.abspath "results") = false
    ∧ (downloadResultGET fsEmpty ".." "passwd").code = 404
    ∧ (downloadResultGET fsEmpty ".." "passwd").code ≠ 403 := by
  decide

/-- Claim C1 (amended): a result-download request whose requested path exists
as a file under its raw name but resolves outside the results root responds
HTTP 403, and the response body is byte-for-byte the body returned for a
genuine 404 on a missing file. -/
theorem downloadResult_403_body_matches_404
    (fs : Fs) (project job_id p2 j2 : String)
    (hex : fs.pathExists ("results/" ++ project ++ "/" ++ job_id) = true)
    (hif : fs.isFile ("results/" ++ project ++ "/" ++ job_id) = true)
    (hesc : (fs.abspath (osJoin (osJoin "results" project) job_id)).startsWith
              (fs.abspath "results") = false)
    (hmiss : fs.pathExists ("results/" ++ p2 ++ "/" ++ j2) = false) :
    (downloadResultGET fs project job_id).code = 403
    ∧ (downloadResultGET fs p2 j2).code = 404
    ∧ (downloadResultGET fs project job_id).body = (downloadResultGET fs p2 j2).body := by
  refine ⟨?_, ?_, ?_⟩ <;> simp [downloadResultGET, hex, hif, hesc, hmiss]

/-- Witness for claim C1 (amended) at concrete inputs: the escaping existing
file `results/a/b` versus the missing in-root file `results/c/d`. -/
theorem downloadResult_403_body_matches_404_witness :
    fsEscape.pathExists ("results/" ++ "a" ++ "/" ++ "b") = true
    ∧ fsEscape.isFile ("results/" ++ "a" ++ "/" ++ "b") = true
    ∧ (fsEscape.abspath (osJoin (osJoin "results" "a") "b")).startsWith
        (fsEscape.abspath "results") = false
    ∧ fsEscape.pathExists ("results/" ++ "c" ++ "/" ++ "d") = false
    ∧ ((downloadResultGET fsEscape "a" "b").code = 403
      ∧ (downloadResultGET fsEscape "c" "d").code = 404
      ∧ (downloadResultGET fsEscape "a" "b").body = (downloadResultGET fsEscape "c" "d").body) :=
  ⟨by decide, by decide, by decide, by decide,
   downloadResult_403_body_matches_404 fsEscape "a" "b" "c" "d"
     (by decide) (by decide) (by decide) (by decide)⟩

/-- Claim C9: the existence check on the raw, un-normalized path runs before
the path-containment check: a path that does not exist as a file under its
raw name gets 404 whether or not it escapes; 403 is answered only when the
raw path exists as a file and the resolved path escapes the root, and a 403
implies the resolved out-of-root target exists and is a file (given that the
file system answers consistently for a path and its resolved form). -/
theorem downloadResult_existence_before_containment
    (fs : Fs) (project job_id : String)
    (hEx : fs.pathExists (fs.abspath (osJoin (osJoin "results" project) job_id)) =
           fs.pathExists ("results/" ++ project ++ "/" ++ job_id))
    (hIf : fs.isFile (fs.abspath (osJoin (osJoin "results" project) job_id)) =
           fs.isFile ("results/" ++ project ++ "/" ++ job_id)) :
    (¬ (fs.pathExists ("results/" ++ project ++ "/" ++ job_id) = true
        ∧ fs.isFile ("results/" ++ project ++ "/" ++ job_id) = true) →
       (downloadResultGET fs project job_id).code = 404)
    ∧ (fs.pathExists ("results/" ++ project ++ "/" ++ job_id) = true →
       fs.isFile ("results/" ++ project ++ "/" ++ job_id) = true →
       (fs.abspath (osJoin (osJoin "results" project) job_id)).startsWith
           (fs.abspath "results") = false →
       (downloadResultGET fs project job_id).code = 403)
    ∧ ((downloadResultGET fs project job_id).code = 403 →
       fs.pathExists (fs.abspath (osJoin (osJoin "results" project) job_id)) = true
       ∧ fs.isFile (fs.abspath (osJoin (osJoin "results" project) job_id)) = true) := by
  refine ⟨?_, ?_, ?_⟩
  · intro h
    simp [downloadResultGET, h]
  · intro ha hb hesc
    simp [downloadResultGET, ha, hb, hesc]
  · intro h403
    by_cases h1 : fs.pathExists ("results/" ++ project ++ "/" ++ job_id) = true
        ∧ fs.isFile ("results/" ++ project ++ "/" ++ job_id) = true
    · exact ⟨by rw [hEx]; exact h1.1, by rw [hIf]; exact h1.2⟩
    · simp [downloadResultGET, h1] at h403

/-- Witness for claim C9 at concrete inputs: the existing escaping file gets
403 under a file system consistent between raw and resolved paths. -/
theorem downloadResult_existence_before_containment_witness :
    fsEscape.pathExists (fsEscape.abspath (osJoin (osJoin "results" "a") "b")) =
      fsEscape.pathExists ("results/" ++ "a" ++ "/" ++ "b")
    ∧ fsEscape.isFile (fsEscape.abspath (osJoin (osJoin "results" "a") "b")) =
      fsEscape.isFile ("results/" ++ "a" ++ "/" ++ "b")
    ∧ ((downloadResultGET fsEscape "a" "b").code = 403 →
       fsEscape.pathExists (fsEscape.abspath (osJoin (osJoin "results" "a") "b")) = true
       ∧ fsEscape.isFile (fsEscape.abspath (osJoin (osJoin "results" "a") "b")) = true) :=
  ⟨by decide, by decide,
   (downloadResult_existence_before_containment fsEscape "a" "b" (by decide) (by decide)).2.2⟩

/-- Counterexample to claim C8 as stated: on the success path of the
named-result download, `Content-Length` equals the length of the content that
was read (3 bytes here), not the length of the identifier string
(`n-i-result`, 10 bytes). -/
theorem spiderResults_content_length_from_content :
    (spiderResultsGET fsNamed false "p" "i" "n").contentLength =
      some (spiderResultsGET fsNamed false "p" "i" "n").body.length
    ∧ (spiderResultsGET fsNamed false "p" "i" "n").body.length = 3
    ∧ ("n" ++ "-" ++ "i" ++ "-result").length = 10
    ∧ (spiderResultsGET fsNamed false "p" "i" "n").contentLength ≠ some 10 := by
  decide

/-- Claim C8 (amended): whenever the named-result download sets
`Content-Length`, it is the actual length of the returned content; the
identifier-length discrepancy lives in the plain result-download operation,
which sets `Content-Length` to the length of the job id string whenever it
sets the header at all. -/
theorem content_length_header_policy
    (fs : Fs) (debug : Bool) (project configID configName p2 j2 : String) :
    ((spiderResultsGET fs debug project configID configName).contentLength = none
      ∨ (spiderResultsGET fs debug project configID configName).contentLength =
          some (spiderResultsGET fs debug project configID configName).body.length)
    ∧ ((downloadResultGET fs p2 j2).contentLength = none
      ∨ (downloadResultGET fs p2 j2).contentLength = some j2.length) := by
  constructor
  · rcases h : fs.read ("results/" ++ project ++ "/local-" ++ configName ++ "-" ++ configID ++ "-result.json")
      with c | _ | e <;> simp [spiderResultsGET, h]
  · simp only [downloadResultGET]
    split
    · simp
    split
    · simp
    split
    · simp
    rcases h : fs.read (osJoin (osJoin "results" p2) j2) with c | _ | e <;> simp [h]

/-- Claim C2: cancelling on an existing project removes a matching pending
job from the project's queue (reporting `prevstate: "pending"` when no
running process also matches); signals every matching running process and
unconditionally moves it from the running set to the finished set with its
end time set to the cancellation moment, reporting `prevstate: "running"`;
and reports `prevstate` absent when nothing matches in pending, running, or
finished. -/
theorem cancel_prevstate_spec (st : ServerState) (now : Nat) (project job signal : String)
    (hq : hasQueue st project = true) :
    ∃ out, cancelPOST st now project job signal = .ok out
      ∧ getQueue out.state project = (getQueue st project).filter (fun m => ¬ m.job = job)
      ∧ (st.launcher.processes.any (procMatch project job) = true →
          out.prevstate = some "running"
          ∧ out.state.launcher.processes =
              st.launcher.processes.filter (fun kp => ¬ procMatch project job kp)
          ∧ out.state.launcher.finished = st.launcher.finished ++
              (st.launcher.processes.filter (procMatch project job)).map
                (fun kp => { kp.2 with end_time := some now })
          ∧ out.signals = (st.launcher.processes.filter (procMatch project job)).map
                (fun kp => (kp.1, signal)))
      ∧ (st.launcher.processes.any (procMatch project job) = false →
          ((getQueue st project).any (fun m => m.job = job) = true →
            out.prevstate = some "pending")
          ∧ ((getQueue st project).any (fun m => m.job = job) = false →
            st.launcher.finished.any (fun f => f.project = project ∧ f.job = job) = false →
            out.prevstate = none)) := by
  unfold cancelPOST
  rw [if_neg (by simp [hq])]
  refine ⟨_, rfl, ?_, ?_, ?_⟩
  · simpa [queueRemove, setQueue] using
      getQueue_setQueue st project ((queueRemove (getQueue st project) job).2) hq
  · intro hrun
    have hne : st.launcher.processes.filter (procMatch project job) ≠ [] := by
      rcases List.any_eq_true.mp hrun with ⟨kp, hmem, hkp⟩
      intro hnil
      exact absurd hkp (by simpa using (List.filter_eq_nil_iff.mp hnil) kp hmem)
    refine ⟨?_, by simp [setQueue], by simp [setQueue], by simp [setQueue]⟩
    simp [setQueue, List.isEmpty_iff, hne]
  · intro hnorun
    have hnomem : ∀ kp ∈ st.launcher.processes, ¬ procMatch project job kp = true := by
      simpa using hnorun
    have hnil : st.launcher.processes.filter (procMatch project job) = [] := by
      rw [List.filter_eq_nil_iff]
      exact hnomem
    constructor
    · intro hpend
      have hx : ∃ m ∈ getQueue st project, m.job = job := by simpa using hpend
      rcases hx with ⟨m, hmem, hm⟩
      have hlen : ((getQueue st project).filter (fun m => m.job = job)).length ≠ 0 := by
        simp only [ne_eq, List.length_eq_zero, List.filter_eq_nil_iff]
        intro hall
        exact absurd hm (by simpa using hall m hmem)
      simp [setQueue, queueRemove, hnil, List.isEmpty_iff, hlen]
    · intro hpend _
      have hall : ∀ m ∈ getQueue st project, ¬ m.job = job := by simpa using hpend
      have hlen : ((getQueue st project).filter (fun m => m.job = job)).length = 0 := by
        simp only [List.length_eq_zero, List.filter_eq_nil_iff]
        intro m hmem
        simpa using hall m hmem
      simp [setQueue, queueRemove, hnil, List.isEmpty_iff, hlen]

/-- Witness for claim C2 at concrete inputs: cancelling job `j` of project
`p`, which is both pending and running. -/
theorem cancel_prevstate_spec_witness :
    hasQueue stCancel "p" = true
    ∧ ∃ out, cancelPOST stCancel 9 "p" "j" "INT" = .ok out
      ∧ getQueue out.state "p" = (getQueue stCancel "p").filter (fun m => ¬ m.job = "j")
      ∧ (stCancel.launcher.processes.any (procMatch "p" "j") = true →
          out.prevstate = some "running"
          ∧ out.state.launcher.processes =
              stCancel.launcher.processes.filter (fun kp => ¬ procMatch "p" "j" kp)
          ∧ out.state.launcher.finished = stCancel.launcher.finished ++
              (stCancel.launcher.processes.filter (procMatch "p" "j")).map
                (fun kp => { kp.2 with end_time := some 9 })
          ∧ out.signals = (stCancel.launcher.processes.filter (procMatch "p" "j")).map
                (fun kp => (kp.1, "INT")))
      ∧ (stCancel.launcher.processes.any (procMatch "p" "j") = false →
          ((getQueue stCancel "p").any (fun m => m.job = "j") = true →
            out.prevstate = some "pending")
          ∧ ((getQueue stCancel "p").any (fun m => m.job = "j") = false →
            stCancel.launcher.finished.any (fun f => f.project = "p" ∧ f.job = "j") = false →
            out.prevstate = none)) :=
  ⟨by decide, cancel_prevstate_spec stCancel 9 "p" "j" "INT" (by decide)⟩

/-- Claim C5: the Schedule body checks, in order: a project with no queue
fails with `project '<p>' not found`; an explicit non-empty version that the
egg store cannot resolve fails with `version '<v>' not found`; a spider
absent from the (project, version) spider list fails with
`spider '<s>' not found`; otherwise the job is handed to the scheduler and
`{jobid}` is returned.  No scheduling call is made on any error path. -/
theorem schedule_error_chain
    (st : ServerState) (cache : Cache) (runner : Runner)
    (eggFound : String → String → Bool) (req : Args)
    (project spider : String) (version : Option String) (jobid : String)
    (priority : Float) (setting : List String) :
    (hasQueue st project = false →
      (scheduleBody st cache runner eggFound req project spider version jobid priority setting).response
          = .error (.httpError 200 ("project '" ++ project ++ "' not found"))
      ∧ (scheduleBody st cache runner eggFound req project spider version jobid priority setting).calls
          = [])
    ∧ (∀ v, hasQueue st project = true → version = some v → v ≠ "" →
        eggFound project v = false →
      (scheduleBody st cache runner eggFound req project spider version jobid priority setting).response
          = .error (.httpError 200 ("version '" ++ v ++ "' not found"))
      ∧ (scheduleBody st cache runner eggFound req project spider version jobid priority setting).calls
          = [])
    ∧ (∀ spiders cache', hasQueue st project = true →
        versionAbsent eggFound project version = false →
        spiderListGet runner cache project version = .ok (spiders, cache') →
        spider ∉ spiders →
      (scheduleBody st cache runner eggFound req project spider version jobid priority setting).response
          = .error (.httpError 200 ("spider '" ++ spider ++ "' not found"))
      ∧ (scheduleBody st cache runner eggFound req project spider version jobid priority setting).calls
          = [])
    ∧ (∀ spiders cache' firsts settings, hasQueue st project = true →
        versionAbsent eggFound project version = false →
        spiderListGet runner cache project version = .ok (spiders, cache') →
        spider ∈ spiders →
        firstValues req = some firsts →
        parseSettings setting = some settings →
      (scheduleBody st cache runner eggFound req project spider version jobid priority setting).response
          = .ok jobid
      ∧ (scheduleBody st cache runner eggFound req project spider version jobid priority setting).calls.map
          (fun c => (c.project, c.spider, c.job)) = [(project, spider, jobid)]) := by
  refine ⟨?_, ?_, ?_, ?_⟩
  · intro h
    constructor <;> simp [scheduleBody, h, projectNotFound]
  · intro v hq hv hne hegg
    subst hv
    have hva : versionAbsent eggFound project (some v) = true := by
      simp [versionAbsent, hne, hegg]
    constructor <;> simp [scheduleBody, hq, hva]
  · intro spiders cache' hq hva hget hnot
    constructor <;> simp [scheduleBody, hq, hva, hget, hnot]
  · intro spiders cache' firsts settings hq hva hget hmem hfv hps
    constructor <;> simp [scheduleBody, hq, hva, hget, hmem, hfv, hps]

/-- Witness for claim C5 at concrete inputs: scheduling on a project with no
queue fails with the `project not found` message. -/
theorem schedule_error_chain_witness :
    hasQueue stCancel "nope" = false
    ∧ ((scheduleBody stCancel cacheEmpty runnerOne (fun _ _ => true) []
          "nope" "s" none "j" 0 []).response
        = .error (.httpError 200 ("project '" ++ "nope" ++ "' not found"))
      ∧ (scheduleBody stCancel cacheEmpty runnerOne (fun _ _ => true) []
          "nope" "s" none "j" 0 []).calls = []) :=
  ⟨by decide,
   (schedule_error_chain stCancel cacheEmpty runnerOne (fun _ _ => true) []
     "nope" "s" none "j" 0 []).1 (by decide)⟩

/-- Popping an absent wire name leaves the argument mapping unchanged. -/
theorem popArg_of_absent (name : String) (req : Args)
    (h : lookupArg name req = none) : popArg name req = req := by
  unfold lookupArg at h
  rw [Option.map_eq_none'] at h
  unfold popArg
  rw [List.filter_eq_self]
  intro kv hmem
  have := List.find?_eq_none.mp h kv hmem
  simpa using this

/-- A successful required-parameter binding pops exactly its wire name. -/
theorem bindStr_remaining (name : String) (req : Args) (v : String) (r : Args)
    (h : bindStr name req = .ok (v, r)) : r = popArg name req := by
  unfold bindStr at h
  cases hl : lookupArg name req with
  | none => rw [hl] at h; exact absurd h (by simp)
  | some vs =>
    rw [hl] at h
    cases vs with
    | nil => exact absurd h (by simp [firstVal, Except.bind])
    | cons a t =>
      simp [firstVal, Except.bind] at h
      exact h.2.symm

/-- A successful optional-parameter binding pops exactly its wire name. -/
theorem bindOptStr_remaining (name : String) (req : Args) (o : Option String) (r : Args)
    (h : bindOptStr name req = .ok (o, r)) : r = popArg name req := by
  unfold bindOptStr at h
  cases hl : lookupArg name req with
  | none =>
    rw [hl] at h
    simp at h
    rw [h.2.symm, popArg_of_absent name req hl]
  | some vs =>
    rw [hl] at h
    cases vs with
    | nil => exact absurd h (by simp [firstVal, Except.bind])
    | cons a t =>
      simp [firstVal, Except.bind] at h
      exact h.2.symm

/-- A successful multiple-parameter binding pops exactly its wire name. -/
theorem bindMulti_remaining (name : String) (req : Args)
    (o : Option (List String)) (r : Args)
    (h : bindMulti name req = .ok (o, r)) : r = popArg name req := by
  unfold bindMulti at h
  cases hl : lookupArg name req with
  | none =>
    rw [hl] at h
    simp at h
    rw [h.2.symm, popArg_of_absent name req hl]
  | some vs =>
    rw [hl] at h
    simp at h
    exact h.2.symm

/-- A successful priority binding pops exactly the `priority` wire name. -/
theorem bindPriority_remaining (fconv : String → Except String Float) (req : Args)
    (x : Float) (r : Args)
    (h : bindPriority fconv req = .ok (x, r)) : r = popArg "priority" req := by
  unfold bindPriority at h
  cases hl : lookupArg "priority" req with
  | none =>
    rw [hl] at h
    simp at h
    rw [h.2.symm, popArg_of_absent "priority" req hl]
  | some vs =>
    rw [hl] at h
    cases vs with
    | nil => exact absurd h (by simp [firstVal])
    | cons a t =>
      simp [firstVal] at h
      cases hc : fconv a with
      | error e => rw [hc] at h; exact absurd h (by simp)
      | ok y => rw [hc] at h; simp at h; exact h.2.symm

/-- A successful Schedule binding leaves exactly the unconsumed parameters. -/
theorem scheduleBind_remaining
    (fconv : String → Except String Float) (freshId : String) (req : Args)
    (project spider : String) (version : Option String) (jobid : String)
    (priority : Float) (setting : List String) (req' : Args)
    (h : scheduleBind fconv freshId req =
      .ok (project, spider, version, jobid, priority, setting, req')) :
    req' = scheduleRemaining req := by
  unfold scheduleBind at h
  split at h
  · simp at h
  rename_i p1 r1 h1
  split at h
  · simp at h
  rename_i p2 r2 h2
  split at h
  · simp at h
  rename_i p3 r3 h3
  split at h
  · simp at h
  rename_i p4 r4 h4
  split at h
  · simp at h
  rename_i p5 r5 h5
  split at h
  · simp at h
  rename_i p6 r6 h6
  simp at h
  obtain ⟨-, -, -, -, -, -, hr⟩ := h
  rw [← hr,
    bindMulti_remaining _ _ _ _ h6,
    bindPriority_remaining _ _ _ _ h5,
    bindOptStr_remaining _ _ _ _ h4,
    bindOptStr_remaining _ _ _ _ h3,
    bindStr_remaining _ _ _ _ h2,
    bindStr_remaining _ _ _ _ h1]
  rfl

/-- The first-value projection preserves the wire names. -/
theorem firstValues_keys (l : Args) (r : List (String × String))
    (h : firstValues l = some r) : r.map Prod.fst = l.map Prod.fst := by
  induction l generalizing r with
  | nil =>
    simp [firstValues] at h
    simp [← h]
  | cons a t ih =>
    obtain ⟨k, vs⟩ := a
    cases vs with
    | nil => exact absurd h (by simp [firstValues])
    | cons v vt =>
      rw [firstValues] at h
      rw [Option.map_eq_some'] at h
      obtain ⟨r', hr', hr⟩ := h
      simp [← hr, ih r' hr']

/-- Membership in the unconsumed-parameter mapping. -/
theorem mem_scheduleRemaining (req : Args) (kv : String × List String) :
    kv ∈ scheduleRemaining req ↔ kv ∈ req
      ∧ ¬ kv.1 = "project" ∧ ¬ kv.1 = "spider" ∧ ¬ kv.1 = "_version"
      ∧ ¬ kv.1 = "jobid" ∧ ¬ kv.1 = "priority" ∧ ¬ kv.1 = "setting" := by
  simp only [scheduleRemaining, popArg, List.mem_filter, decide_not]
  constructor
  · intro h
    simp at h
    tauto
  · intro h
    simp
    tauto

/-- Counterexample to claim C10 as stated: the consumed `_version` parameter
of a Schedule request is re-added to the forwarded extra spider arguments
(under key `_version`), so a consumed parameter is forwarded. -/
theorem schedule_version_reforwarded :
    ((schedulePOST stCancel cacheHit runnerOne (fun _ _ => true) (fun _ => .ok 0) "fresh"
        reqFoo).calls.map (fun c => c.args)) = [[("foo", "x"), ("_version", "7")]]
    ∧ ("_version", "7") ∈ [("foo", "x"), ("_version", "7")]
    ∧ lookupArg "_version" reqFoo = some ["7"] :=
  ⟨rfl, by decide, by decide⟩

/-- Claim C10 (amended): of the request parameters not consumed by the
declared Schedule parameters, only the first value of each wire name is
forwarded as an extra spider argument (additional repeated values are
discarded); consumed parameters are removed from the request mapping and none
of them appears among the forwarded first values — the one exception being
the explicit version, whose bound value is re-added under the key `_version`
and forwarded alongside them. -/
theorem schedule_extra_args_spec
    (st : ServerState) (cache : Cache) (runner : Runner)
    (eggFound : String → String → Bool) (fconv : String → Except String Float)
    (freshId : String) (req : Args)
    (project spider : String) (version : Option String) (jobid : String)
    (priority : Float) (setting : List String) (req' : Args)
    (hbind : scheduleBind fconv freshId req =
      .ok (project, spider, version, jobid, priority, setting, req')) :
    req' = scheduleRemaining req
    ∧ ∀ c ∈ (schedulePOST st cache runner eggFound fconv freshId req).calls,
        ∃ firsts, firstValues (scheduleRemaining req) = some firsts
          ∧ c.args = firsts ++
              (match version with | some v => [("_version", v)] | none => [])
          ∧ ∀ kv ∈ firsts, ¬ kv.1 = "project" ∧ ¬ kv.1 = "spider" ∧ ¬ kv.1 = "_version"
              ∧ ¬ kv.1 = "jobid" ∧ ¬ kv.1 = "priority" ∧ ¬ kv.1 = "setting" := by
  have hrem := scheduleBind_remaining fconv freshId req project spider version jobid
    priority setting req' hbind
  refine ⟨hrem, ?_⟩
  intro c hc
  simp only [schedulePOST, hbind] at hc
  unfold scheduleBody at hc
  split at hc
  · simp at hc
  split at hc
  · simp at hc
  split at hc
  · simp at hc
  rename_i spiders cache' hget
  split at hc
  · simp at hc
  split at hc
  · simp at hc
  rename_i firsts hfv
  have hkeys : ∀ kv ∈ firsts, ¬ kv.1 = "project" ∧ ¬ kv.1 = "spider" ∧ ¬ kv.1 = "_version"
      ∧ ¬ kv.1 = "jobid" ∧ ¬ kv.1 = "priority" ∧ ¬ kv.1 = "setting" := by
    intro kv hkv
    have hk : kv.1 ∈ req'.map Prod.fst := by
      rw [← firstValues_keys req' firsts hfv]
      exact List.mem_map_of_mem Prod.fst hkv
    rw [hrem] at hk
    rcases List.mem_map.mp hk with ⟨kv', hmem', hfst⟩
    have hprops := (mem_scheduleRemaining req kv').mp hmem'
    rw [← hfst]
    exact ⟨hprops.2.1, hprops.2.2.1, hprops.2.2.2.1, hprops.2.2.2.2.1,
      hprops.2.2.2.2.2.1, hprops.2.2.2.2.2.2⟩
  split at hc
  all_goals split at hc
  all_goals simp at hc
  all_goals exact ⟨firsts, by rw [← hrem]; exact hfv, by simp [hc], hkeys⟩

/-- Witness for claim C10 (amended) at concrete inputs: the request `reqFoo`
with its repeated unconsumed parameter `foo` and explicit version `7`. -/
theorem schedule_extra_args_spec_witness :
    scheduleBind (fun _ => .ok 0) "fresh" reqFoo =
      .ok ("p", "s", some "7", "fresh", 0, [], [("foo", ["x", "y"])])
    ∧ (([("foo", ["x", "y"])] : Args) = scheduleRemaining reqFoo
      ∧ ∀ c ∈ (schedulePOST stCancel cacheHit runnerOne (fun _ _ => true) (fun _ => .ok 0)
            "fresh" reqFoo).calls,
          ∃ firsts, firstValues (scheduleRemaining reqFoo) = some firsts
            ∧ c.args = firsts ++
                (match (some "7" : Option String) with | some v => [("_version", v)] | none => [])
            ∧ ∀ kv ∈ firsts, ¬ kv.1 = "project" ∧ ¬ kv.1 = "spider" ∧ ¬ kv.1 = "_version"
                ∧ ¬ kv.1 = "jobid" ∧ ¬ kv.1 = "priority" ∧ ¬ kv.1 = "setting") :=
  ⟨rfl,
   schedule_extra_args_spec stCancel cacheHit runnerOne (fun _ _ => true) (fun _ => .ok 0)
     "fresh" reqFoo "p" "s" (some "7") "fresh" 0 [] [("foo", ["x", "y"])] rfl⟩

end Scrapyd
